import Mathlib

/-!
Verification of the `site-connection-finder` crawler (`src/main.rs`, `src/model.rs`).

The development shallowly embeds the program:

* `parseUrl` / `serializeUrl` / `canonicalize` model the external `url` crate's
  `Url::parse(..)?.to_string()` used at the top of `discover_sites` (main.rs line 100):
  a WHATWG-style parse of `scheme://host[:port][/path][?query][#fragment]` that
  lowercases scheme and host, drops the default port (80 for http, 443 for https),
  inserts `/` for an empty path, and otherwise serializes the record back verbatim —
  in particular the fragment is preserved.  The model is restricted to hierarchical
  URLs without percent-encoding, userinfo or IPv6 hosts; none of the claims need those.
* `isTextualContentType` embeds the content-type filter of main.rs lines 140-154,
  including the literal allowlist `APPLICATION_TEXT_HEADERS` with its entry
  `"application/xtml+xml"` exactly as written in the source.
* `discover` embeds `discover_sites` (main.rs lines 97-183) with the tokio scheduling
  serialized: each spawned child runs to completion at its spawn point and its result
  is handled where `main.rs` joins it.  The database is the explicit `Store`; the web
  is the explicit `World` mapping a URL to its response (content type plus the link
  strings the `linkify` extractor would produce from the body).  A recursion-depth
  `fuel` makes the function total; running out of fuel is the distinguished outcome
  `DErr.fuelOut`.  The `source.id.unwrap()` of main.rs line 126 is embedded as the
  distinguished outcome `DErr.panicked`; like a tokio `JoinError` behind `h.await?`
  (main.rs line 175) it propagates, while a child's ordinary error is logged at
  error level and swallowed (main.rs lines 176-179).
* `raceStep` models the non-atomic check-then-create of main.rs lines 102-121 for
  several interleaved tasks, one store round-trip per step.
-/

namespace SiteConn

/-- Lowercasing used by the URL parser for scheme and host. -/
def strToLower (s : String) : String := ⟨s.data.map Char.toLower⟩

/-- Scans for the first occurrence of the literal separator sequence colon-slash-slash,
returning the characters before it (the scheme) and after it. -/
def splitSchemeAux : List Char → List Char → Option (List Char × List Char)
  | acc, ':' :: '/' :: '/' :: rest => some (acc.reverse, rest)
  | acc, a :: rest => splitSchemeAux (a :: acc) rest
  | _, [] => none

/-- Splits at the first occurrence of a character: the part before it, and
optionally the part after it when the character occurs. -/
def splitFirstChar (c : Char) : List Char → List Char × Option (List Char)
  | [] => ([], none)
  | a :: rest =>
    if a = c then ([], some rest)
    else
      let p := splitFirstChar c rest
      (a :: p.1, p.2)

/-- A scheme is one alphabetic character followed by alphanumerics or plus, minus, dot. -/
def schemeOkL : List Char → Bool
  | [] => false
  | c :: cs => c.isAlpha && cs.all (fun d => d.isAlphanum || d = '+' || d = '-' || d = '.')

/-- Hosts in the model are nonempty strings of alphanumerics, dots and hyphens. -/
def hostOkL (host : List Char) : Bool :=
  !host.isEmpty && host.all (fun c => c.isAlphanum || c = '.' || c = '-')

/-- Decimal port digits to a number; fails on a non-digit. -/
def portOfChars (l : List Char) : Option Nat :=
  if l.all Char.isDigit && !l.isEmpty then
    some (l.foldl (fun n c => n * 10 + (c.toNat - 48)) 0)
  else none

/-- The parsed form of an absolute URL. -/
structure ParsedUrl where
  scheme : String
  host : String
  port : Option Nat
  path : String
  query : Option String
  fragment : Option String
deriving DecidableEq, Repr

/-- Default ports dropped by serialization: 80 for http, 443 for https. -/
def defaultPort (scheme : String) : Option Nat :=
  if scheme = "http" then some 80 else if scheme = "https" then some 443 else none

/-- Models `Url::parse` of the `url` crate on hierarchical URLs: splits off
scheme, fragment, query, host, port and path, lowercases scheme and host,
normalizes away an explicit default port and an empty path. -/
def parseUrl (raw : String) : Option ParsedUrl :=
  match splitSchemeAux [] raw.data with
  | none => none
  | some (schemeChars, rest) =>
    let scheme := schemeChars.map Char.toLower
    if schemeOkL scheme then
      let fr := splitFirstChar '#' rest
      let qu := splitFirstChar '?' fr.1
      let hp := splitFirstChar '/' qu.1
      let hc := splitFirstChar ':' hp.1
      let host := hc.1.map Char.toLower
      if hostOkL host then
        let portO : Option (Option Nat) :=
          match hc.2 with
          | none => some none
          | some [] => some none
          | some ps => (portOfChars ps).map some
        match portO with
        | none => none
        | some port =>
          let schemeS : String := ⟨scheme⟩
          some { scheme := schemeS
                 host := ⟨host⟩
                 port := if port = defaultPort schemeS then none else port
                 path := ⟨'/' :: hp.2.getD []⟩
                 query := qu.2.map (fun l => ⟨l⟩)
                 fragment := fr.2.map (fun l => ⟨l⟩) }
      else none
    else none

/-- Models `Url`'s `Display`: serializes the parsed record back to a string. -/
def serializeUrl (u : ParsedUrl) : String :=
  u.scheme ++ "://" ++ u.host ++
  (match u.port with | none => "" | some p => ":" ++ toString p) ++
  u.path ++
  (match u.query with | none => "" | some q => "?" ++ q) ++
  (match u.fragment with | none => "" | some f => "#" ++ f)

/-- Models main.rs line 100, `Url::parse(&url)?.to_string()`: the canonical
string form of an input URL, or failure (the `InvalidURL` condition). -/
def canonicalize (raw : String) : Option String := (parseUrl raw).map serializeUrl

/-- Boolean test that `p` is an initial segment of `l`. -/
def listIsPre : List Char → List Char → Bool
  | [], _ => true
  | _ :: _, [] => false
  | a :: as, b :: bs => a = b && listIsPre as bs

/-- Models Rust `str::starts_with` for string patterns. -/
def strStarts (s pat : String) : Bool := listIsPre pat.data s.data

/-- The literal allowlist `APPLICATION_TEXT_HEADERS` of main.rs lines 144-150,
verbatim, including the misspelled fifth entry. -/
def APPLICATION_TEXT_HEADERS : List String :=
  ["application/json", "application/xml", "application/javascript",
   "application/ld+json", "application/xtml+xml"]

/-- Models the condition of main.rs line 151: the response is treated as textual
exactly when its declared content type starts with text-slash or is literally a
member of the allowlist. -/
def isTextualContentType (ct : String) : Bool :=
  strStarts ct "text/" || APPLICATION_TEXT_HEADERS.contains ct

/-- Log levels of the `tracing` macros used in `discover_sites`. -/
inductive LogLevel
  | debug
  | info
  | error
deriving DecidableEq, Repr

/-- The SurrealDB state plus the observable I/O of one run: node records
`(id, url)` of the node table, edge records `(source id, target id)` of the
relation table, the next generated record id, the list of URLs fetched over
HTTP, and the emitted log lines.  Nodes, edges, fetches and logs are prepended. -/
structure Store where
  nodes : List (Nat × String)
  edges : List (Nat × Nat)
  nextId : Nat
  fetched : List String
  logs : List (LogLevel × String)
deriving DecidableEq, Repr

/-- `SiteURLNode` of model.rs lines 4-8: a url and an optional store-assigned id. -/
structure SiteURLNode where
  url : String
  id : Option Nat
deriving DecidableEq, Repr

/-- The ways one `discover_sites` invocation can end other than `Ok(())`:
`invalidUrl` (line 100 `?`), `fetchError` (lines 136/138 `?`), `panicked`
(the `unwrap` of line 126), and the model's own `fuelOut`. -/
inductive DErr
  | invalidUrl
  | fetchError
  | panicked
  | fuelOut
deriving DecidableEq, Repr

/-- What a GET of a canonical URL returns: a content type together with the link
strings the extractor yields from the body, or a transport failure. -/
inductive Response
  | ok (contentType : String) (links : List String)
  | fail
deriving DecidableEq, Repr

/-- The reachable web, as a finite association list from canonical URL to response.
A URL absent from the world behaves as a transport failure. -/
abbrev World := List (String × Response)

/-- Looks up a URL's response in the world. -/
def lookupW (w : World) (u : String) : Option Response :=
  (w.find? (fun x => decide (x.1 = u))).map (fun x => x.2)

/-- Models the existence probe of main.rs lines 103-110: the query
selecting by url returns a nonempty finding exactly when a node with that url exists. -/
def visited (s : Store) (u : String) : Bool :=
  s.nodes.any (fun n => decide (n.2 = u))

/-- Prepend a log line. -/
def addLog (lvl : LogLevel) (msg : String) (s : Store) : Store :=
  { s with logs := (lvl, msg) :: s.logs }

/-- The debug line of main.rs line 111. -/
def dedupSkipMsg : String := "Found url that was already searched, skipping"

/-- The debug line of main.rs line 152 (content-type mismatch). -/
def nonTextualMsg (url ct : String) : String :=
  "Url " ++ url ++ " is content-type " ++ ct ++ ", ignoring"

/-- The info line of main.rs line 163. -/
def foundUrlMsg (l : String) : String := "Found url: " ++ l

/-- The error line of main.rs line 178: the child's error, rendered. -/
def childErrMsg : DErr → String
  | .invalidUrl => "InvalidURL"
  | .fetchError => "FetchError"
  | .panicked => "Panicked"
  | .fuelOut => "FuelOut"

/-- Models the spawn-and-join loops of main.rs lines 158-180 over the deduplicated
link set, serialized: per link the info line is logged, the child invocation runs,
an `invalidUrl` or `fetchError` child outcome is logged at error level and dropped
(lines 176-179), while `panicked` and `fuelOut` propagate like the `?` of line 175. -/
def runChildren (child : String → Store → Option DErr × Store) :
    List String → Store → Option DErr × Store
  | [], s => (none, s)
  | l :: ls, s =>
    let s0 := addLog .info (foundUrlMsg l) s
    match child l s0 with
    | (none, s1) => runChildren child ls s1
    | (some .invalidUrl, s1) =>
        runChildren child ls (addLog .error (childErrMsg .invalidUrl) s1)
    | (some .fetchError, s1) =>
        runChildren child ls (addLog .error (childErrMsg .fetchError) s1)
    | (some .panicked, s1) => (some .panicked, s1)
    | (some .fuelOut, s1) => (some .fuelOut, s1)

/-- Models main.rs lines 115-121: persist a node with the given url; the store
assigns it the next generated id. -/
def nodeStep (url : String) (s : Store) : Store :=
  { s with nodes := (s.nextId, url) :: s.nodes, nextId := s.nextId + 1 }

/-- Models main.rs lines 123-131: when this invocation has a source, relate the
source's unwrapped id to the fresh node's id; an absent source id is the
`unwrap` panic. -/
def edgeStep (source : Option SiteURLNode) (nid : Nat) (s : Store) :
    Option DErr × Store :=
  match source with
  | none => (none, s)
  | some src =>
    match src.id with
    | none => (some .panicked, s)
    | some pid => (none, { s with edges := (pid, nid) :: s.edges })

/-- Records the outgoing GET of main.rs lines 134-138. -/
def fetchMark (url : String) (s : Store) : Store :=
  { s with fetched := url :: s.fetched }

/-- Models one `discover_sites` invocation (main.rs lines 97-183) against world `w`:
canonicalize, dedup existence check, node create, optional edge create using
`source.id.unwrap()`, fetch, content-type filter, link extraction and dedup,
and the serialized spawn/join of one child per link with the fresh node as parent. -/
def discover (w : World) : Nat → Option SiteURLNode → String → Store →
    Option DErr × Store
  | 0, _, _, s => (some .fuelOut, s)
  | fuel + 1, source, rawUrl, s =>
    match canonicalize rawUrl with
    | none => (some .invalidUrl, s)
    | some url =>
      if visited s url then
        (none, addLog .debug dedupSkipMsg s)
      else
        match edgeStep source s.nextId (nodeStep url s) with
        | (some e, s2) => (some e, s2)
        | (none, s2) =>
          match lookupW w url with
          | none => (some .fetchError, fetchMark url s2)
          | some .fail => (some .fetchError, fetchMark url s2)
          | some (.ok ct links) =>
            if isTextualContentType ct then
              runChildren (fun l t => discover w fuel (some ⟨url, some s.nextId⟩) l t)
                links.dedup (fetchMark url s2)
            else
              (none, addLog .debug (nonTextualMsg url ct) (fetchMark url s2))

/-- Program counter of one in-flight `discover_sites` invocation restricted to the
check-then-create section of main.rs lines 102-121: about to run the existence
query, about to run the create, or past it. -/
inductive TaskPC
  | atCheck
  | atCreate
  | pastCreate
deriving DecidableEq, Repr

/-- Several concurrent invocations sharing the node table: each task holds its
program counter and the canonical URL it is working on. -/
structure RaceState where
  tasks : List (TaskPC × String)
  nodes : List (Nat × String)
  nextId : Nat
deriving DecidableEq, Repr

/-- The existence probe of main.rs lines 103-110 against the shared node list. -/
def raceVisited (nodes : List (Nat × String)) (u : String) : Bool :=
  nodes.any (fun n => decide (n.2 = u))

/-- One scheduler step: task `i` performs its next store round-trip.  At the
check (main.rs lines 103-113) it either terminates (url already present) or
proceeds to the create; at the create (main.rs lines 115-120) it inserts a new
node.  The two round-trips are separate suspension points, exactly the
non-atomicity of the check-then-create sequence. -/
def raceStep (st : RaceState) (i : Nat) : RaceState :=
  match st.tasks[i]? with
  | none => st
  | some (pc, u) =>
    match pc with
    | .atCheck =>
      if raceVisited st.nodes u then { st with tasks := st.tasks.set i (.pastCreate, u) }
      else { st with tasks := st.tasks.set i (.atCreate, u) }
    | .atCreate =>
      { st with tasks := st.tasks.set i (.pastCreate, u),
                nodes := (st.nextId, u) :: st.nodes,
                nextId := st.nextId + 1 }
    | .pastCreate => st

/-- Run a schedule, i.e. a sequence of task indices. -/
def raceRun (st : RaceState) (sched : List Nat) : RaceState :=
  sched.foldl raceStep st

/-- The number of URLs of the world for which no node exists yet; the traversal's
termination measure. -/
def unvisitedCount (w : World) (s : Store) : Nat :=
  ((w.map Prod.fst).dedup.filter (fun u => !(visited s u))).length

/-- How one invocation may grow the store: ids never decrease, node and edge
records are only prepended, and every new edge points at a node id allocated
no earlier than the starting `nextId` and within the final id horizon. -/
def Evol (s t : Store) : Prop :=
  s.nextId ≤ t.nextId ∧
  (∃ ns, t.nodes = ns ++ s.nodes) ∧
  (∃ es, t.edges = es ++ s.edges ∧ ∀ e ∈ es, s.nextId ≤ e.2 ∧ e.2 < t.nextId)

/-- Store sanity: every persisted edge points at an already-allocated id. -/
def StoreWF (s : Store) : Prop := ∀ e ∈ s.edges, e.2 < s.nextId

/-- The empty store a run starts from. -/
def emptyStore : Store := ⟨[], [], 0, [], []⟩

/-- A three-page world: page `a` links to `b` and `c`, page `b` links to `c`,
page `c` has no links — the spec's own edge-creation example graph. -/
def exWorld : World :=
  [("http://a/", .ok "text/html" ["http://b/", "http://c/"]),
   ("http://b/", .ok "text/html" ["http://c/"]),
   ("http://c/", .ok "text/html" [])]

/-- A two-page cyclic world: `a` links to `b` and `b` links back to `a`. -/
def cycleWorld : World :=
  [("http://a/", .ok "text/html" ["http://b/"]),
   ("http://b/", .ok "text/html" ["http://a/"])]

/-- Two tasks that both canonicalized the same URL and share the node table,
both still ahead of their existence check. -/
def raceInit : RaceState :=
  ⟨[(.atCheck, "http://x/"), (.atCheck, "http://x/")], [], 0⟩

/-- A store in which page `a` is already persisted as node 0 and was fetched. -/
def exStoreA : Store := ⟨[(0, "http://a/")], [], 1, ["http://a/"], []⟩

/-- The store produced by running the traversal over `exWorld` from the empty
store with ample fuel (its value is checked against `discover` in the proofs). -/
def exRunStore : Store :=
  ⟨[(2, "http://c/"), (1, "http://b/"), (0, "http://a/")],
   [(1, 2), (0, 1)], 3,
   ["http://c/", "http://b/", "http://a/"],
   [(.debug, dedupSkipMsg),
    (.info, "Found url: http://c/"),
    (.info, "Found url: http://c/"),
    (.info, "Found url: http://b/")]⟩

theorem toNat_ofNat_valid {m : Nat} (h : m.isValidChar) : (Char.ofNat m).toNat = m := by
  rw [Char.ofNat, dif_pos h]
  rfl

theorem toLower_idem (c : Char) : c.toLower.toLower = c.toLower := by
  by_cases h : c.toNat ≥ 65 ∧ c.toNat ≤ 90
  · have hv : (c.toNat + 32).isValidChar := Or.inl (by omega)
    have h2 : ¬((Char.ofNat (c.toNat + 32)).toNat ≥ 65 ∧
        (Char.ofNat (c.toNat + 32)).toNat ≤ 90) := by
      rw [toNat_ofNat_valid hv]; omega
    simp [Char.toLower, h, h2]
  · simp [Char.toLower, h]

theorem map_toLower_idem (l : List Char) :
    (l.map Char.toLower).map Char.toLower = l.map Char.toLower := by
  rw [List.map_map]
  exact List.map_congr_left (fun c _ => toLower_idem c)

theorem evol_refl (s : Store) : Evol s s :=
  ⟨Nat.le_refl _, ⟨[], rfl⟩, ⟨[], rfl, by simp⟩⟩

theorem evol_trans {s t u : Store} (h1 : Evol s t) (h2 : Evol t u) : Evol s u := by
  obtain ⟨hn1, ⟨ns1, hns1⟩, ⟨es1, hes1, hb1⟩⟩ := h1
  obtain ⟨hn2, ⟨ns2, hns2⟩, ⟨es2, hes2, hb2⟩⟩ := h2
  refine ⟨Nat.le_trans hn1 hn2, ⟨ns2 ++ ns1, by rw [hns2, hns1, List.append_assoc]⟩,
    ⟨es2 ++ es1, by rw [hes2, hes1, List.append_assoc], ?_⟩⟩
  intro e he
  rcases List.mem_append.mp he with h | h
  · exact ⟨Nat.le_trans hn1 (hb2 e h).1, (hb2 e h).2⟩
  · exact ⟨(hb1 e h).1, Nat.lt_of_lt_of_le (hb1 e h).2 hn2⟩

theorem evol_addLog (lvl : LogLevel) (msg : String) (s : Store) :
    Evol s (addLog lvl msg s) :=
  ⟨Nat.le_refl _, ⟨[], rfl⟩, ⟨[], rfl, by simp⟩⟩

theorem visited_addLog (lvl : LogLevel) (msg : String) (s : Store) (u : String) :
    visited (addLog lvl msg s) u = visited s u := rfl

theorem visited_of_evol {s t : Store} (h : Evol s t) {u : String}
    (hv : visited s u = true) : visited t u = true := by
  obtain ⟨-, ⟨ns, hns⟩, -⟩ := h
  unfold visited at *
  rw [List.any_eq_true] at *
  obtain ⟨n, hn, hd⟩ := hv
  exact ⟨n, by rw [hns]; exact List.mem_append_right _ hn, hd⟩

theorem length_filter_mono {α : Type} (l : List α) (p q : α → Bool)
    (h : ∀ a ∈ l, q a = true → p a = true) :
    (l.filter q).length ≤ (l.filter p).length := by
  induction l with
  | nil => simp
  | cons a l ih =>
    have ih' := ih (fun b hb => h b (List.mem_cons_of_mem a hb))
    by_cases hq : q a = true
    · rw [List.filter_cons_of_pos hq, List.filter_cons_of_pos (h a (List.mem_cons_self a l) hq)]
      simpa using ih'
    · rw [List.filter_cons_of_neg (by simpa using hq)]
      by_cases hp : p a = true
      · rw [List.filter_cons_of_pos hp]
        exact Nat.le_trans ih' (Nat.le_succ _)
      · rw [List.filter_cons_of_neg (by simpa using hp)]
        exact ih'

theorem length_filter_lt {α : Type} (l : List α) (p q : α → Bool) (u : α)
    (hu : u ∈ l) (hp : p u = true) (hq : q u = false)
    (h : ∀ a ∈ l, q a = true → p a = true) :
    (l.filter q).length < (l.filter p).length := by
  induction l with
  | nil => cases hu
  | cons a l ih =>
    have hmono := length_filter_mono l p q (fun b hb => h b (List.mem_cons_of_mem a hb))
    rcases List.mem_cons.mp hu with rfl | hu'
    · rw [List.filter_cons_of_pos hp, List.filter_cons_of_neg (by simp [hq])]
      exact Nat.lt_succ_of_le hmono
    · have ih' := ih hu' (fun b hb => h b (List.mem_cons_of_mem a hb))
      by_cases hqa : q a = true
      · rw [List.filter_cons_of_pos hqa, List.filter_cons_of_pos (h a (List.mem_cons_self a l) hqa)]
        simpa using ih'
      · rw [List.filter_cons_of_neg (by simpa using hqa)]
        by_cases hpa : p a = true
        · rw [List.filter_cons_of_pos hpa]
          exact Nat.lt_succ_of_le (Nat.le_of_lt ih')
        · rw [List.filter_cons_of_neg (by simpa using hpa)]
          exact ih'

theorem unvisited_mono {w : World} {s t : Store}
    (h : ∀ u, visited s u = true → visited t u = true) :
    unvisitedCount w t ≤ unvisitedCount w s := by
  apply length_filter_mono
  intro a _ hq
  rw [Bool.not_eq_true'] at hq ⊢
  cases hsv : visited s a with
  | false => rfl
  | true => exact absurd (h a hsv) (by simp [hq])

theorem unvisited_lt {w : World} {s t : Store} {url : String}
    (hmem : url ∈ w.map Prod.fst) (hs : visited s url = false)
    (ht : visited t url = true)
    (h : ∀ u, visited s u = true → visited t u = true) :
    unvisitedCount w t < unvisitedCount w s := by
  apply length_filter_lt _ _ _ url
  · exact List.mem_dedup.mpr hmem
  · simp [hs]
  · simp [ht]
  · intro a _ hq
    rw [Bool.not_eq_true'] at hq ⊢
    cases hsv : visited s a with
    | false => rfl
    | true => exact absurd (h a hsv) (by simp [hq])

theorem mem_of_lookupW {w : World} {u : String} {r : Response}
    (h : lookupW w u = some r) : u ∈ w.map Prod.fst := by
  unfold lookupW at h
  cases hf : w.find? (fun x => decide (x.1 = u)) with
  | none => rw [hf] at h; cases h
  | some x =>
    have hmem := List.mem_of_find?_eq_some hf
    have hpred := List.find?_some hf
    rw [decide_eq_true_iff] at hpred
    exact hpred ▸ List.mem_map_of_mem Prod.fst hmem

theorem evol_nodeStep (s : Store) (url : String) : Evol s (nodeStep url s) :=
  ⟨Nat.le_succ _, ⟨[(s.nextId, url)], rfl⟩, ⟨[], rfl, by simp⟩⟩

theorem evol_fetchMark (s : Store) (url : String) : Evol s (fetchMark url s) :=
  ⟨Nat.le_refl _, ⟨[], rfl⟩, ⟨[], rfl, by simp⟩⟩

theorem edgeStep_none (nid : Nat) (s : Store) : edgeStep none nid s = (none, s) := rfl

theorem edgeStep_some {sn : SiteURLNode} {pid : Nat} (hid : sn.id = some pid)
    (nid : Nat) (s : Store) :
    edgeStep (some sn) nid s = (none, { s with edges := (pid, nid) :: s.edges }) := by
  simp [edgeStep, hid]

theorem edgeStep_panic {sn : SiteURLNode} (hid : sn.id = none) (nid : Nat) (s : Store) :
    edgeStep (some sn) nid s = (some .panicked, s) := by
  simp [edgeStep, hid]

theorem evol_edgeStep (src : Option SiteURLNode) (url : String) (s : Store) :
    Evol s (edgeStep src (s.nextId) (nodeStep url s)).2 := by
  cases src with
  | none => exact evol_nodeStep s url
  | some sn =>
    cases hid : sn.id with
    | none => rw [edgeStep_panic hid]; exact evol_nodeStep s url
    | some pid =>
      rw [edgeStep_some hid]
      exact ⟨Nat.le_succ _, ⟨[(s.nextId, url)], rfl⟩,
        ⟨[(pid, s.nextId)], rfl, by simp [nodeStep]⟩⟩

theorem runChildren_rel (child : String → Store → Option DErr × Store)
    (R : Store → Store → Prop)
    (hrefl : ∀ s, R s s)
    (htrans : ∀ {a b c}, R a b → R b c → R a c)
    (hchild : ∀ l t, R t (child l t).2)
    (hlog : ∀ lvl msg t, R t (addLog lvl msg t)) :
    ∀ ls s, R s (runChildren child ls s).2 := by
  intro ls
  induction ls with
  | nil => intro s; exact hrefl s
  | cons l ls ih =>
    intro s
    simp only [runChildren]
    rcases hc : child l (addLog .info (foundUrlMsg l) s) with ⟨e, s1⟩
    have h1 : R s s1 := by
      have h2 := hchild l (addLog .info (foundUrlMsg l) s)
      rw [hc] at h2
      exact htrans (hlog _ _ s) h2
    cases e with
    | none => exact htrans h1 (ih s1)
    | some err =>
      cases err with
      | invalidUrl => exact htrans h1 (htrans (hlog _ _ s1) (ih _))
      | fetchError => exact htrans h1 (htrans (hlog _ _ s1) (ih _))
      | panicked => exact h1
      | fuelOut => exact h1

theorem runChildren_fst (child : String → Store → Option DErr × Store) :
    ∀ ls s, (runChildren child ls s).1 = none ∨
      (runChildren child ls s).1 = some .panicked ∨
      (runChildren child ls s).1 = some .fuelOut := by
  intro ls
  induction ls with
  | nil => intro s; left; rfl
  | cons l ls ih =>
    intro s
    simp only [runChildren]
    rcases hc : child l (addLog .info (foundUrlMsg l) s) with ⟨e, s1⟩
    cases e with
    | none => exact ih s1
    | some err =>
      cases err with
      | invalidUrl => exact ih _
      | fetchError => exact ih _
      | panicked => right; left; rfl
      | fuelOut => right; right; rfl

theorem runChildren_ne_panicked (child : String → Store → Option DErr × Store)
    (h : ∀ l t, (child l t).1 ≠ some .panicked) :
    ∀ ls s, (runChildren child ls s).1 ≠ some .panicked := by
  intro ls
  induction ls with
  | nil => intro s hcon; cases hcon
  | cons l ls ih =>
    intro s
    simp only [runChildren]
    rcases hc : child l (addLog .info (foundUrlMsg l) s) with ⟨e, s1⟩
    cases e with
    | none => exact ih s1
    | some err =>
      cases err with
      | invalidUrl => exact ih _
      | fetchError => exact ih _
      | panicked => exact absurd (congrArg Prod.fst hc) (h l _)
      | fuelOut => simp

theorem runChildren_ne_fuel (w : World) (fuelB : Nat)
    (child : String → Store → Option DErr × Store)
    (hok : ∀ l t, unvisitedCount w t + 1 ≤ fuelB → (child l t).1 ≠ some .fuelOut)
    (hmono : ∀ l t, unvisitedCount w (child l t).2 ≤ unvisitedCount w t) :
    ∀ ls s, unvisitedCount w s + 1 ≤ fuelB →
      (runChildren child ls s).1 ≠ some .fuelOut := by
  intro ls
  induction ls with
  | nil => intro s _ hcon; cases hcon
  | cons l ls ih =>
    intro s hs
    simp only [runChildren]
    rcases hc : child l (addLog .info (foundUrlMsg l) s) with ⟨e, s1⟩
    have hs1 : unvisitedCount w s1 + 1 ≤ fuelB := by
      have h2 := hmono l (addLog .info (foundUrlMsg l) s)
      rw [hc] at h2
      exact Nat.le_trans (Nat.succ_le_succ h2) hs
    cases e with
    | none => exact ih s1 hs1
    | some err =>
      cases err with
      | invalidUrl => exact ih _ hs1
      | fetchError => exact ih _ hs1
      | panicked => simp
      | fuelOut => exact absurd (congrArg Prod.fst hc) (hok l _ hs)

theorem discover_eq_invalid (w : World) (fuel : Nat) (src : Option SiteURLNode)
    (raw : String) (s : Store) (hc : canonicalize raw = none) :
    discover w (fuel + 1) src raw s = (some .invalidUrl, s) := by
  simp [discover, hc]

theorem discover_eq_visited (w : World) (fuel : Nat) (src : Option SiteURLNode)
    {raw url : String} (s : Store) (hc : canonicalize raw = some url)
    (hv : visited s url = true) :
    discover w (fuel + 1) src raw s = (none, addLog .debug dedupSkipMsg s) := by
  simp [discover, hc, hv]

theorem discover_eq_panicked (w : World) (fuel : Nat) {src : Option SiteURLNode}
    {sn : SiteURLNode} {raw url : String} (s : Store) (hc : canonicalize raw = some url)
    (hv : visited s url = false) (hsrc : src = some sn) (hid : sn.id = none) :
    discover w (fuel + 1) src raw s = (some .panicked, nodeStep url s) := by
  simp [discover, hc, hv, hsrc, edgeStep_panic hid]

theorem discover_eq_fetchfail (w : World) (fuel : Nat) {src : Option SiteURLNode}
    {raw url : String} (s : Store) {s2 : Store} (hc : canonicalize raw = some url)
    (hv : visited s url = false)
    (he : edgeStep src s.nextId (nodeStep url s) = (none, s2))
    (hw : lookupW w url = none ∨ lookupW w url = some .fail) :
    discover w (fuel + 1) src raw s = (some .fetchError, fetchMark url s2) := by
  rcases hw with hw | hw <;> simp [discover, hc, hv, he, hw]

theorem discover_eq_nontextual (w : World) (fuel : Nat) {src : Option SiteURLNode}
    {raw url : String} (s : Store) {s2 : Store} {ct : String} {links : List String}
    (hc : canonicalize raw = some url) (hv : visited s url = false)
    (he : edgeStep src s.nextId (nodeStep url s) = (none, s2))
    (hw : lookupW w url = some (.ok ct links)) (ht : isTextualContentType ct = false) :
    discover w (fuel + 1) src raw s =
      (none, addLog .debug (nonTextualMsg url ct) (fetchMark url s2)) := by
  simp [discover, hc, hv, he, hw, ht]

theorem discover_eq_children (w : World) (fuel : Nat) {src : Option SiteURLNode}
    {raw url : String} (s : Store) {s2 : Store} {ct : String} {links : List String}
    (hc : canonicalize raw = some url) (hv : visited s url = false)
    (he : edgeStep src s.nextId (nodeStep url s) = (none, s2))
    (hw : lookupW w url = some (.ok ct links)) (ht : isTextualContentType ct = true) :
    discover w (fuel + 1) src raw s =
      runChildren (fun l t => discover w fuel (some ⟨url, some s.nextId⟩) l t)
        links.dedup (fetchMark url s2) := by
  simp [discover, hc, hv, he, hw, ht]

theorem discover_evol (w : World) :
    ∀ fuel src raw s, Evol s (discover w fuel src raw s).2 := by
  intro fuel
  induction fuel with
  | zero => intro src raw s; exact evol_refl s
  | succ fuel ih =>
    intro src raw s
    cases hc : canonicalize raw with
    | none => rw [discover_eq_invalid w fuel src raw s hc]; exact evol_refl s
    | some url =>
      cases hv : visited s url with
      | true => rw [discover_eq_visited w fuel src s hc hv]; exact evol_addLog _ _ s
      | false =>
        rcases he : edgeStep src s.nextId (nodeStep url s) with ⟨e, s2⟩
        have hevol2 : Evol s s2 := by
          have h2 := evol_edgeStep src url s
          rw [he] at h2
          exact h2
        cases e with
        | some err =>
          cases src with
          | none => rw [edgeStep_none] at he; cases he
          | some sn =>
            cases hid : sn.id with
            | none =>
              rw [discover_eq_panicked w fuel s hc hv rfl hid]
              exact evol_nodeStep s url
            | some pid => rw [edgeStep_some hid] at he; cases he
        | none =>
          cases hw : lookupW w url with
          | none =>
            rw [discover_eq_fetchfail w fuel s hc hv he (Or.inl hw)]
            exact evol_trans hevol2 (evol_fetchMark s2 url)
          | some r =>
            cases r with
            | fail =>
              rw [discover_eq_fetchfail w fuel s hc hv he (Or.inr hw)]
              exact evol_trans hevol2 (evol_fetchMark s2 url)
            | ok ct links =>
              cases ht : isTextualContentType ct with
              | false =>
                rw [discover_eq_nontextual w fuel s hc hv he hw ht]
                exact evol_trans hevol2
                  (evol_trans (evol_fetchMark s2 url) (evol_addLog _ _ _))
              | true =>
                rw [discover_eq_children w fuel s hc hv he hw ht]
                refine evol_trans hevol2 (evol_trans (evol_fetchMark s2 url) ?_)
                exact runChildren_rel _ Evol evol_refl (fun h1 h2 => evol_trans h1 h2)
                  (fun l t => ih _ l t) evol_addLog _ _

theorem edgeStep_snd_nodes (src : Option SiteURLNode) (nid : Nat) (t : Store) :
    (edgeStep src nid t).2.nodes = t.nodes := by
  cases src with
  | none => rfl
  | some sn =>
    cases hid : sn.id with
    | none => rw [edgeStep_panic hid]
    | some pid => rw [edgeStep_some hid]

theorem visited_congr_nodes {s t : Store} (h : s.nodes = t.nodes) (u : String) :
    visited s u = visited t u := by
  unfold visited
  rw [h]

theorem visited_nodeStep (s : Store) (url : String) :
    visited (nodeStep url s) url = true := by
  simp [visited, nodeStep]

theorem not_mem_map_snd_of_not_visited {s : Store} {url : String}
    (hv : visited s url = false) : url ∉ s.nodes.map Prod.snd := by
  intro hmem
  obtain ⟨x, hx, hxe⟩ := List.mem_map.mp hmem
  unfold visited at hv
  rw [List.any_eq_false] at hv
  exact absurd (decide_eq_true hxe) (hv x hx)

theorem nodup_nodeStep {s : Store} {url : String} (hv : visited s url = false)
    (h : (s.nodes.map Prod.snd).Nodup) :
    ((nodeStep url s).nodes.map Prod.snd).Nodup := by
  simp only [nodeStep, List.map_cons]
  exact List.nodup_cons.mpr ⟨not_mem_map_snd_of_not_visited hv, h⟩

theorem discover_nodup (w : World) :
    ∀ fuel src raw s, (s.nodes.map Prod.snd).Nodup →
      ((discover w fuel src raw s).2.nodes.map Prod.snd).Nodup := by
  intro fuel
  induction fuel with
  | zero => intro src raw s h; exact h
  | succ fuel ih =>
    intro src raw s h
    cases hc : canonicalize raw with
    | none => rw [discover_eq_invalid w fuel src raw s hc]; exact h
    | some url =>
      cases hv : visited s url with
      | true => rw [discover_eq_visited w fuel src s hc hv]; exact h
      | false =>
        rcases he : edgeStep src s.nextId (nodeStep url s) with ⟨e, s2⟩
        have hn2 : s2.nodes = (nodeStep url s).nodes := by
          have h2 := edgeStep_snd_nodes src s.nextId (nodeStep url s)
          rw [he] at h2
          exact h2
        have hnodup2 : (s2.nodes.map Prod.snd).Nodup := by
          rw [hn2]
          exact nodup_nodeStep hv h
        cases e with
        | some err =>
          cases src with
          | none => rw [edgeStep_none] at he; cases he
          | some sn =>
            cases hid : sn.id with
            | none =>
              rw [discover_eq_panicked w fuel s hc hv rfl hid]
              exact nodup_nodeStep hv h
            | some pid => rw [edgeStep_some hid] at he; cases he
        | none =>
          cases hw : lookupW w url with
          | none =>
            rw [discover_eq_fetchfail w fuel s hc hv he (Or.inl hw)]
            exact hnodup2
          | some r =>
            cases r with
            | fail =>
              rw [discover_eq_fetchfail w fuel s hc hv he (Or.inr hw)]
              exact hnodup2
            | ok ct links =>
              cases ht : isTextualContentType ct with
              | false =>
                rw [discover_eq_nontextual w fuel s hc hv he hw ht]
                exact hnodup2
              | true =>
                rw [discover_eq_children w fuel s hc hv he hw ht]
                exact runChildren_rel _
                  (fun a b => (a.nodes.map Prod.snd).Nodup → (b.nodes.map Prod.snd).Nodup)
                  (fun _ h1 => h1) (fun h1 h2 h3 => h2 (h1 h3))
                  (fun l t => ih _ l t) (fun _ _ _ h1 => h1) _ _ hnodup2

theorem discover_ne_panicked (w : World) :
    ∀ fuel src raw s, (∀ n, src = some n → n.id.isSome = true) →
      (discover w fuel src raw s).1 ≠ some .panicked := by
  intro fuel
  induction fuel with
  | zero => intro src raw s _ hcon; cases hcon
  | succ fuel ih =>
    intro src raw s hsrc
    cases hc : canonicalize raw with
    | none => rw [discover_eq_invalid w fuel src raw s hc]; simp
    | some url =>
      cases hv : visited s url with
      | true => rw [discover_eq_visited w fuel src s hc hv]; simp
      | false =>
        rcases he : edgeStep src s.nextId (nodeStep url s) with ⟨e, s2⟩
        cases e with
        | some err =>
          cases src with
          | none => rw [edgeStep_none] at he; cases he
          | some sn =>
            cases hid : sn.id with
            | none =>
              have h2 := hsrc sn rfl
              rw [hid] at h2
              cases h2
            | some pid => rw [edgeStep_some hid] at he; cases he
        | none =>
          cases hw : lookupW w url with
          | none =>
            rw [discover_eq_fetchfail w fuel s hc hv he (Or.inl hw)]
            simp
          | some r =>
            cases r with
            | fail =>
              rw [discover_eq_fetchfail w fuel s hc hv he (Or.inr hw)]
              simp
            | ok ct links =>
              cases ht : isTextualContentType ct with
              | false =>
                rw [discover_eq_nontextual w fuel s hc hv he hw ht]
                simp
              | true =>
                rw [discover_eq_children w fuel s hc hv he hw ht]
                exact runChildren_ne_panicked _
                  (fun l t => ih _ l t (fun n hn => by cases hn; rfl)) _ _

theorem discover_ne_fuel (w : World) :
    ∀ fuel src raw s, unvisitedCount w s + 1 ≤ fuel →
      (discover w fuel src raw s).1 ≠ some .fuelOut := by
  intro fuel
  induction fuel with
  | zero => intro src raw s hs; exact absurd hs (Nat.not_succ_le_zero _)
  | succ fuel ih =>
    intro src raw s hs
    cases hc : canonicalize raw with
    | none => rw [discover_eq_invalid w fuel src raw s hc]; simp
    | some url =>
      cases hv : visited s url with
      | true => rw [discover_eq_visited w fuel src s hc hv]; simp
      | false =>
        rcases he : edgeStep src s.nextId (nodeStep url s) with ⟨e, s2⟩
        have hevol2 : Evol s s2 := by
          have h2 := evol_edgeStep src url s
          rw [he] at h2
          exact h2
        have hv2 : visited s2 url = true := by
          have hn2 := edgeStep_snd_nodes src s.nextId (nodeStep url s)
          rw [he] at hn2
          rw [visited_congr_nodes hn2]
          exact visited_nodeStep s url
        cases e with
        | some err =>
          cases src with
          | none => rw [edgeStep_none] at he; cases he
          | some sn =>
            cases hid : sn.id with
            | none =>
              rw [discover_eq_panicked w fuel s hc hv rfl hid]
              simp
            | some pid => rw [edgeStep_some hid] at he; cases he
        | none =>
          cases hw : lookupW w url with
          | none =>
            rw [discover_eq_fetchfail w fuel s hc hv he (Or.inl hw)]
            simp
          | some r =>
            cases r with
            | fail =>
              rw [discover_eq_fetchfail w fuel s hc hv he (Or.inr hw)]
              simp
            | ok ct links =>
              cases ht : isTextualContentType ct with
              | false =>
                rw [discover_eq_nontextual w fuel s hc hv he hw ht]
                simp
              | true =>
                rw [discover_eq_children w fuel s hc hv he hw ht]
                have hlt : unvisitedCount w s2 < unvisitedCount w s :=
                  unvisited_lt (mem_of_lookupW hw) hv hv2
                    (fun u hu => visited_of_evol hevol2 hu)
                refine runChildren_ne_fuel w fuel _
                  (fun l t hlt2 => ih _ l t hlt2)
                  (fun l t => unvisited_mono
                    (fun u hu => visited_of_evol (discover_evol w fuel _ l t) hu))
                  _ _ ?_
                have hb : unvisitedCount w (fetchMark url s2) = unvisitedCount w s2 := rfl
                omega

theorem discover_visited (w : World) (fuel : Nat) (src : Option SiteURLNode)
    {raw url : String} (s : Store) (hc : canonicalize raw = some url)
    (hres : (discover w fuel src raw s).1 = none) :
    visited (discover w fuel src raw s).2 url = true := by
  cases fuel with
  | zero => cases hres
  | succ fuel =>
    cases hv : visited s url with
    | true =>
      rw [discover_eq_visited w fuel src s hc hv]
      exact hv
    | false =>
      rcases he : edgeStep src s.nextId (nodeStep url s) with ⟨e, s2⟩
      have hv2 : visited s2 url = true := by
        have hn2 := edgeStep_snd_nodes src s.nextId (nodeStep url s)
        rw [he] at hn2
        rw [visited_congr_nodes hn2]
        exact visited_nodeStep s url
      cases e with
      | some err =>
        cases src with
        | none => rw [edgeStep_none] at he; cases he
        | some sn =>
          cases hid : sn.id with
          | none =>
            rw [discover_eq_panicked w fuel s hc hv rfl hid] at hres
            cases hres
          | some pid => rw [edgeStep_some hid] at he; cases he
      | none =>
        cases hw : lookupW w url with
        | none =>
          rw [discover_eq_fetchfail w fuel s hc hv he (Or.inl hw)] at hres
          cases hres
        | some r =>
          cases r with
          | fail =>
            rw [discover_eq_fetchfail w fuel s hc hv he (Or.inr hw)] at hres
            cases hres
          | ok ct links =>
            cases ht : isTextualContentType ct with
            | false =>
              rw [discover_eq_nontextual w fuel s hc hv he hw ht]
              exact hv2
            | true =>
              rw [discover_eq_children w fuel s hc hv he hw ht]
              have hev3 : Evol (fetchMark url s2)
                  (runChildren (fun l t => discover w fuel (some ⟨url, some s.nextId⟩) l t)
                    links.dedup (fetchMark url s2)).2 :=
                runChildren_rel
                  (fun l t => discover w fuel (some ⟨url, some s.nextId⟩) l t) Evol
                  evol_refl (fun h1 h2 => evol_trans h1 h2)
                  (fun l t => discover_evol w fuel (some ⟨url, some s.nextId⟩) l t)
                  evol_addLog _ _
              exact visited_of_evol hev3 hv2

theorem parseUrl_host_lower {raw : String} {u : ParsedUrl} (h : parseUrl raw = some u) :
    strToLower u.host = u.host := by
  unfold parseUrl at h
  split at h
  · cases h
  · dsimp only at h
    split at h
    · split at h
      · split at h
        · cases h
        · injection h with h
          subst h
          show strToLower ⟨_⟩ = _
          unfold strToLower
          simp only
          rw [map_toLower_idem]
      · cases h
    · cases h

theorem parseUrl_port_nondefault {raw : String} {u : ParsedUrl} {p : Nat}
    (h : parseUrl raw = some u) (hp : u.port = some p) :
    defaultPort u.scheme ≠ some p := by
  unfold parseUrl at h
  split at h
  · cases h
  · dsimp only at h
    split at h
    · split at h
      · split at h
        · cases h
        · injection h with h
          subst h
          dsimp only at hp
          split at hp
          · cases hp
          · next hne =>
            intro hd
            exact hne (by rw [hp, ← hd])
      · cases h
    · cases h

theorem countP_target_zero (nid : Nat) (es rest : List (Nat × Nat))
    (hes : ∀ e ∈ es, nid < e.2) (hrest : ∀ e ∈ rest, e.2 < nid) :
    (es ++ rest).countP (fun e => decide (e.2 = nid)) = 0 := by
  rw [List.countP_eq_zero]
  intro e he
  rcases List.mem_append.mp he with h | h
  · have := hes e h
    simp only [decide_eq_true_iff]
    omega
  · have := hrest e h
    simp only [decide_eq_true_iff]
    omega

theorem countP_target_one (nid pid : Nat) (es rest : List (Nat × Nat))
    (hes : ∀ e ∈ es, nid < e.2) (hrest : ∀ e ∈ rest, e.2 < nid) :
    (es ++ (pid, nid) :: rest).countP (fun e => decide (e.2 = nid)) = 1 := by
  rw [List.countP_append, List.countP_cons_of_pos _ _ (by simp), List.countP_eq_zero.mpr,
    List.countP_eq_zero.mpr]
  · intro e he
    have := hrest e he
    simp only [decide_eq_true_iff]
    omega
  · intro e he
    have := hes e he
    simp only [decide_eq_true_iff]
    omega

/-- C1: for every traversal invocation whose canonical URL already has a node in
the configured node table, the invocation terminates immediately and successfully
(`Ok`), and the store is untouched except for one debug log line: no node is
created, no edge is created, no fetch is issued, and no children are spawned. -/
theorem c1_dedup_short_circuit (w : World) (fuel : Nat) (src : Option SiteURLNode)
    (raw url : String) (s : Store) (hc : canonicalize raw = some url)
    (hv : visited s url = true) :
    (discover w (fuel + 1) src raw s).1 = none ∧
    (discover w (fuel + 1) src raw s).2.nodes = s.nodes ∧
    (discover w (fuel + 1) src raw s).2.edges = s.edges ∧
    (discover w (fuel + 1) src raw s).2.fetched = s.fetched ∧
    (discover w (fuel + 1) src raw s).2.logs = (.debug, dedupSkipMsg) :: s.logs := by
  rw [discover_eq_visited w fuel src s hc hv]
  exact ⟨rfl, rfl, rfl, rfl, rfl⟩

/-- Witness for C1 at a concrete input: page `a` is already persisted, so a second
invocation for it changes nothing but the log. -/
theorem c1_dedup_short_circuit_witness :
    canonicalize "http://a/" = some "http://a/" ∧
    visited exStoreA "http://a/" = true ∧
    ((discover exWorld 1 none "http://a/" exStoreA).1 = none ∧
     (discover exWorld 1 none "http://a/" exStoreA).2.nodes = exStoreA.nodes ∧
     (discover exWorld 1 none "http://a/" exStoreA).2.edges = exStoreA.edges ∧
     (discover exWorld 1 none "http://a/" exStoreA).2.fetched = exStoreA.fetched ∧
     (discover exWorld 1 none "http://a/" exStoreA).2.logs =
       (.debug, dedupSkipMsg) :: exStoreA.logs) :=
  ⟨by decide, by decide,
   c1_dedup_short_circuit exWorld 0 none "http://a/" "http://a/" exStoreA
     (by decide) (by decide)⟩

/-- C2: the content-type filter at the failing input of the claim.  The code's
allowlist misspells the XHTML media type as `application/xtml+xml`, so a response
declaring `application/xhtml+xml` — which both the spec and the claim call
textual — is classified as non-textual and its branch stops without extracting
links, while `text/html; charset=utf-8` and `application/pdf` behave as claimed. -/
theorem c2_content_type_filter :
    isTextualContentType "text/html; charset=utf-8" = true ∧
    isTextualContentType "application/pdf" = false ∧
    isTextualContentType "application/json" = true ∧
    isTextualContentType "application/xhtml+xml" = false ∧
    APPLICATION_TEXT_HEADERS.contains "application/xtml+xml" = true ∧
    ¬ APPLICATION_TEXT_HEADERS.contains "application/xhtml+xml" = true := by
  decide

/-- C3 counterexample: two inputs that differ only in their fragment — and hence
denote the same resource — do not canonicalize identically, because
`Url::parse(..).to_string()` preserves the fragment.  The dedup existence check
therefore treats them as distinct URLs. -/
theorem c3_counterexample :
    canonicalize "http://example.com/a" = some "http://example.com/a" ∧
    canonicalize "http://example.com/a#sec" = some "http://example.com/a#sec" ∧
    canonicalize "http://example.com/a" ≠ canonicalize "http://example.com/a#sec" := by
  decide

/-- C3 amended: canonicalization is parse-then-serialize, so any two input strings
with the same parse — e.g. differing only in scheme or host letter case, or by an
explicit default port — produce identical canonical strings, and every canonical
record has a lowercased host and no explicit default port; but the fragment is
kept, so fragment-differing inputs are not identified. -/
theorem c3_canonicalize_normalizes (s t : String) (u : ParsedUrl)
    (hst : parseUrl s = parseUrl t) (hu : parseUrl s = some u) :
    canonicalize s = canonicalize t ∧
    strToLower u.host = u.host ∧
    (∀ p, u.port = some p → defaultPort u.scheme ≠ some p) :=
  ⟨by unfold canonicalize; rw [hst],
   parseUrl_host_lower hu,
   fun _ hp => parseUrl_port_nondefault hu hp⟩

/-- Witness for C3 amended: an upper-case host with an explicit default port
parses like its plain form and canonicalizes to the very same string. -/
theorem c3_canonicalize_normalizes_witness :
    parseUrl "HTTP://Example.COM:80/a?q=1" = parseUrl "http://example.com/a?q=1" ∧
    parseUrl "HTTP://Example.COM:80/a?q=1" =
      some ⟨"http", "example.com", none, "/a", some "q=1", none⟩ ∧
    (canonicalize "HTTP://Example.COM:80/a?q=1" = canonicalize "http://example.com/a?q=1" ∧
     strToLower "example.com" = "example.com" ∧
     (∀ p, (none : Option Nat) = some p → defaultPort "http" ≠ some p)) :=
  ⟨by decide, by decide,
   c3_canonicalize_normalizes "HTTP://Example.COM:80/a?q=1" "http://example.com/a?q=1"
     ⟨"http", "example.com", none, "/a", some "q=1", none⟩ (by decide) (by decide)⟩

/-- C4 counterexample: over the spec's own example graph (seed `a` links to `b`
and `c`, and `b` links to `c`), the run produces only the two edges `(0,1)` and
`(1,2)` — node 2 is `c`, reached both from `a` (node 0) and from `b` (node 1),
yet there is no edge `(0,2)`: the second discoverer short-circuits at the dedup
check before the edge-creation step, so the edge set has 2 elements, not 3. -/
theorem c4_counterexample :
    (discover exWorld 4 none "http://a/" emptyStore).2.nodes =
      [(2, "http://c/"), (1, "http://b/"), (0, "http://a/")] ∧
    (discover exWorld 4 none "http://a/" emptyStore).2.edges = [(1, 2), (0, 1)] ∧
    (0, 2) ∉ (discover exWorld 4 none "http://a/" emptyStore).2.edges ∧
    (discover exWorld 4 none "http://a/" emptyStore).2.edges.length ≠ 3 := by
  decide

/-- C4 amended: an invocation that creates a node persists exactly one edge into
the fresh node when it has a parent identifier, and none when it is the seed;
an invocation that finds its URL already persisted creates no edge at all, so a
target reached from two distinct sources keeps exactly one incoming edge — the
one from the invocation that created it. -/
theorem c4_edge_creation (w : World) (fuel : Nat) (src : Option SiteURLNode)
    (raw url : String) (s : Store) (hWF : StoreWF s)
    (hc : canonicalize raw = some url) (hv : visited s url = false) :
    (∀ sn pid, src = some sn → sn.id = some pid →
      (pid, s.nextId) ∈ (discover w (fuel + 1) src raw s).2.edges ∧
      (discover w (fuel + 1) src raw s).2.edges.countP
        (fun e => decide (e.2 = s.nextId)) = 1) ∧
    (src = none →
      (discover w (fuel + 1) src raw s).2.edges.countP
        (fun e => decide (e.2 = s.nextId)) = 0) := by
  constructor
  · rintro sn pid rfl hid
    have he := edgeStep_some hid s.nextId (nodeStep url s)
    have hone : ∀ t : Store,
        t.edges = (pid, s.nextId) :: s.edges → t.nextId = s.nextId + 1 →
        ∀ r : Store, Evol t r →
        ((pid, s.nextId) ∈ r.edges ∧
          r.edges.countP (fun e => decide (e.2 = s.nextId)) = 1) := by
      intro t hte htn r hr
      obtain ⟨-, -, ⟨es, hes, hbound⟩⟩ := hr
      rw [hes, hte]
      constructor
      · exact List.mem_append_right _ (List.mem_cons_self _ _)
      · refine countP_target_one s.nextId pid es s.edges ?_ (fun e he2 => hWF e he2)
        intro e he2
        have := (hbound e he2).1
        rw [htn] at this
        omega
    have hone2 : ∀ r : Store,
        Evol { nodeStep url s with
               edges := (pid, s.nextId) :: (nodeStep url s).edges } r →
        ((pid, s.nextId) ∈ r.edges ∧
          r.edges.countP (fun e => decide (e.2 = s.nextId)) = 1) :=
      fun r hr => hone _ rfl rfl r hr
    cases hw : lookupW w url with
    | none =>
      rw [discover_eq_fetchfail w fuel s hc hv he (Or.inl hw)]
      exact hone2 _ (evol_fetchMark _ url)
    | some r =>
      cases r with
      | fail =>
        rw [discover_eq_fetchfail w fuel s hc hv he (Or.inr hw)]
        exact hone2 _ (evol_fetchMark _ url)
      | ok ct links =>
        cases ht : isTextualContentType ct with
        | false =>
          rw [discover_eq_nontextual w fuel s hc hv he hw ht]
          exact hone2 _ (evol_trans (evol_fetchMark _ url) (evol_addLog _ _ _))
        | true =>
          rw [discover_eq_children w fuel s hc hv he hw ht]
          refine hone2 _ (evol_trans (evol_fetchMark _ url) ?_)
          exact runChildren_rel
            (fun l t => discover w fuel (some ⟨url, some s.nextId⟩) l t) Evol
            evol_refl (fun h1 h2 => evol_trans h1 h2)
            (fun l t => discover_evol w fuel (some ⟨url, some s.nextId⟩) l t)
            evol_addLog _ _
  · rintro rfl
    have he := edgeStep_none s.nextId (nodeStep url s)
    have hzero : ∀ t : Store,
        t.edges = s.edges → t.nextId = s.nextId + 1 →
        ∀ r : Store, Evol t r →
        r.edges.countP (fun e => decide (e.2 = s.nextId)) = 0 := by
      intro t hte htn r hr
      obtain ⟨-, -, ⟨es, hes, hbound⟩⟩ := hr
      rw [hes, hte]
      refine countP_target_zero s.nextId es s.edges ?_ (fun e he2 => hWF e he2)
      intro e he2
      have := (hbound e he2).1
      rw [htn] at this
      omega
    have hzero2 : ∀ r : Store, Evol (nodeStep url s) r →
        r.edges.countP (fun e => decide (e.2 = s.nextId)) = 0 :=
      fun r hr => hzero (nodeStep url s) rfl rfl r hr
    cases hw : lookupW w url with
    | none =>
      rw [discover_eq_fetchfail w fuel s hc hv he (Or.inl hw)]
      exact hzero2 _ (evol_fetchMark _ url)
    | some r =>
      cases r with
      | fail =>
        rw [discover_eq_fetchfail w fuel s hc hv he (Or.inr hw)]
        exact hzero2 _ (evol_fetchMark _ url)
      | ok ct links =>
        cases ht : isTextualContentType ct with
        | false =>
          rw [discover_eq_nontextual w fuel s hc hv he hw ht]
          exact hzero2 _ (evol_trans (evol_fetchMark _ url) (evol_addLog _ _ _))
        | true =>
          rw [discover_eq_children w fuel s hc hv he hw ht]
          refine hzero2 _ (evol_trans (evol_fetchMark _ url) ?_)
          exact runChildren_rel
            (fun l t => discover w fuel (some ⟨url, some s.nextId⟩) l t) Evol
            evol_refl (fun h1 h2 => evol_trans h1 h2)
            (fun l t => discover_evol w fuel (some ⟨url, some s.nextId⟩) l t)
            evol_addLog _ _

/-- Witness for C4 amended: a parented invocation for the unvisited page `b`
persists exactly the one edge `(0,1)` into the fresh node 1. -/
theorem c4_edge_creation_witness :
    StoreWF exStoreA ∧
    canonicalize "http://b/" = some "http://b/" ∧
    visited exStoreA "http://b/" = false ∧
    ((0, 1) ∈ (discover exWorld 3 (some ⟨"http://a/", some 0⟩) "http://b/" exStoreA).2.edges ∧
     (discover exWorld 3 (some ⟨"http://a/", some 0⟩) "http://b/" exStoreA).2.edges.countP
       (fun e => decide (e.2 = 1)) = 1) :=
  ⟨fun e he => absurd he (List.not_mem_nil e), (by decide), (by decide),
   ((c4_edge_creation exWorld 2 (some ⟨"http://a/", some 0⟩) "http://b/" "http://b/"
      exStoreA (fun e he => absurd he (List.not_mem_nil e)) (by decide) (by decide)).1
      ⟨"http://a/", some 0⟩ 0 rfl rfl)⟩

/-- C5: the spawn-and-join loop of a parent with a persisted id (every real parent
carries `some id`) awaits every child and returns `Ok` regardless of the
individual child outcomes — malformed links, unfetchable hosts and non-textual
children are all caught at the join point and never abort the parent (the fuel
bound only rules out the model's artificial out-of-fuel outcome). -/
theorem c5_children_failures_caught (w : World) (fuel : Nat) (purl : String)
    (pid : Nat) (links : List String) (s : Store)
    (hfuel : unvisitedCount w s + 1 ≤ fuel) :
    (runChildren (fun l t => discover w fuel (some ⟨purl, some pid⟩) l t) links s).1 =
      none := by
  rcases runChildren_fst (fun l t => discover w fuel (some ⟨purl, some pid⟩) l t)
    links s with h | h | h
  · exact h
  · exact absurd h (runChildren_ne_panicked _
      (fun l t => discover_ne_panicked w fuel (some ⟨purl, some pid⟩) l t
        (fun n hn => by cases hn; rfl)) links s)
  · exact absurd h (runChildren_ne_fuel w fuel _
      (fun l t h2 => discover_ne_fuel w fuel (some ⟨purl, some pid⟩) l t h2)
      (fun l t => unvisited_mono
        (fun u hu => visited_of_evol
          (discover_evol w fuel (some ⟨purl, some pid⟩) l t) hu))
      links s hfuel)

/-- Witness for C5: a parent joins a malformed link, a host outside the world
(fetch failure) and a good link, and still returns `Ok`. -/
theorem c5_children_failures_caught_witness :
    unvisitedCount exWorld exStoreA + 1 ≤ 4 ∧
    (runChildren (fun l t => discover exWorld 4 (some ⟨"http://a/", some 0⟩) l t)
      ["not a url", "http://nowhere/", "http://b/"] exStoreA).1 = none :=
  ⟨by decide, c5_children_failures_caught exWorld 4 "http://a/" 0
    ["not a url", "http://nowhere/", "http://b/"] exStoreA (by decide)⟩

/-- C6 counterexample: a link that fails to canonicalize is dropped without store
or network I/O, but the drop is recorded at ERROR level by the parent's join loop
(`error!` in main.rs line 178) — not at debug level as the claim states; the only
other line is the info spawn line, and no debug line is emitted at all. -/
theorem c6_counterexample :
    (runChildren (fun l t => discover exWorld 1 (some ⟨"http://a/", some 0⟩) l t)
      ["not a url"] exStoreA).2.logs =
      [(LogLevel.error, "InvalidURL"), (LogLevel.info, "Found url: not a url")] ∧
    (runChildren (fun l t => discover exWorld 1 (some ⟨"http://a/", some 0⟩) l t)
      ["not a url"] exStoreA).2.nodes = exStoreA.nodes ∧
    (runChildren (fun l t => discover exWorld 1 (some ⟨"http://a/", some 0⟩) l t)
      ["not a url"] exStoreA).2.edges = exStoreA.edges ∧
    (runChildren (fun l t => discover exWorld 1 (some ⟨"http://a/", some 0⟩) l t)
      ["not a url"] exStoreA).2.fetched = exStoreA.fetched ∧
    LogLevel.error ≠ LogLevel.debug := by
  decide

/-- C6 amended: a link whose text fails to parse is dropped before any store or
network I/O — the join loop logs the drop at error level (not debug), the
remaining links are processed exactly as if the bad link were absent, and the
failure never escapes the parent: the equation shows the whole effect of the bad
link is two log lines. -/
theorem c6_invalid_link_dropped (w : World) (fuel : Nat) (parent : SiteURLNode)
    (l : String) (ls : List String) (s : Store) (hl : canonicalize l = none) :
    runChildren (fun x t => discover w (fuel + 1) (some parent) x t) (l :: ls) s =
      runChildren (fun x t => discover w (fuel + 1) (some parent) x t) ls
        (addLog .error (childErrMsg .invalidUrl) (addLog .info (foundUrlMsg l) s)) := by
  simp only [runChildren]
  rw [discover_eq_invalid w fuel (some parent) l (addLog .info (foundUrlMsg l) s) hl]

/-- Witness for C6 amended at the spec's own malformed input. -/
theorem c6_invalid_link_dropped_witness :
    canonicalize "not a url" = none ∧
    runChildren (fun x t => discover exWorld 1 (some ⟨"http://a/", some 0⟩) x t)
      ["not a url"] exStoreA =
      runChildren (fun x t => discover exWorld 1 (some ⟨"http://a/", some 0⟩) x t) []
        (addLog .error (childErrMsg .invalidUrl)
          (addLog .info (foundUrlMsg "not a url") exStoreA)) :=
  ⟨by decide, c6_invalid_link_dropped exWorld 0 ⟨"http://a/", some 0⟩ "not a url" []
    exStoreA (by decide)⟩

/-- C7: over any finite world, a root invocation whose seed canonicalizes and
whose own fetch succeeds reaches `Ok` — even when the link graph has cycles —
provided the fuel covers the number of unvisited world URLs plus one, which the
dedup short-circuit makes sufficient: no URL is ever expanded twice. -/
theorem c7_termination (w : World) (fuel : Nat) (seed url ct : String)
    (links : List String) (s : Store)
    (hfuel : unvisitedCount w s + 1 ≤ fuel)
    (hc : canonicalize seed = some url)
    (hw : lookupW w url = some (.ok ct links)) :
    (discover w fuel none seed s).1 = none := by
  cases fuel with
  | zero => exact absurd hfuel (Nat.not_succ_le_zero _)
  | succ fuel =>
    cases hv : visited s url with
    | true => rw [discover_eq_visited w fuel none s hc hv]
    | false =>
      have he := edgeStep_none s.nextId (nodeStep url s)
      cases ht : isTextualContentType ct with
      | false => rw [discover_eq_nontextual w fuel s hc hv he hw ht]
      | true =>
        rw [discover_eq_children w fuel s hc hv he hw ht]
        rcases runChildren_fst (fun l t => discover w fuel (some ⟨url, some s.nextId⟩) l t)
          links.dedup (fetchMark url (nodeStep url s)) with h | h | h
        · exact h
        · exact absurd h (runChildren_ne_panicked _
            (fun l t => discover_ne_panicked w fuel (some ⟨url, some s.nextId⟩) l t
              (fun n hn => by cases hn; rfl)) _ _)
        · refine absurd h (runChildren_ne_fuel w fuel _
            (fun l t h2 => discover_ne_fuel w fuel (some ⟨url, some s.nextId⟩) l t h2)
            (fun l t => unvisited_mono
              (fun u hu => visited_of_evol
                (discover_evol w fuel (some ⟨url, some s.nextId⟩) l t) hu)) _ _ ?_)
          have hlt : unvisitedCount w (nodeStep url s) < unvisitedCount w s :=
            unvisited_lt (mem_of_lookupW hw) hv (visited_nodeStep s url)
              (fun u hu => visited_of_evol (evol_nodeStep s url) hu)
          have hb : unvisitedCount w (fetchMark url (nodeStep url s)) =
              unvisitedCount w (nodeStep url s) := rfl
          omega

/-- Witness for C7 on a cyclic two-page world: `a` links `b`, `b` links back to
`a`, and the root still reaches `Ok` with fuel covering the two URLs. -/
theorem c7_termination_witness :
    unvisitedCount cycleWorld emptyStore + 1 ≤ 3 ∧
    canonicalize "http://a/" = some "http://a/" ∧
    lookupW cycleWorld "http://a/" = some (.ok "text/html" ["http://b/"]) ∧
    (discover cycleWorld 3 none "http://a/" emptyStore).1 = none :=
  ⟨by decide, by decide, by decide,
   c7_termination cycleWorld 3 "http://a/" "http://a/" "text/html" ["http://b/"]
     emptyStore (by decide) (by decide) (by decide)⟩

/-- C8: re-running the traversal for the same seed against the store left by a
completed prior run creates zero new nodes, zero new edges and issues zero
fetches: the seed short-circuits at the existence check immediately. -/
theorem c8_rerun_no_new_records (w : World) (fuel fuel2 : Nat) (seed url : String)
    (s0 s1 : Store) (hc : canonicalize seed = some url)
    (h1 : discover w fuel none seed s0 = (none, s1)) :
    (discover w (fuel2 + 1) none seed s1).1 = none ∧
    (discover w (fuel2 + 1) none seed s1).2.nodes = s1.nodes ∧
    (discover w (fuel2 + 1) none seed s1).2.edges = s1.edges ∧
    (discover w (fuel2 + 1) none seed s1).2.fetched = s1.fetched := by
  have hres : (discover w fuel none seed s0).1 = none := by rw [h1]
  have hv := discover_visited w fuel none s0 hc hres
  rw [h1] at hv
  rw [discover_eq_visited w fuel2 none s1 hc hv]
  exact ⟨rfl, rfl, rfl, rfl⟩

/-- Witness for C8: the concrete completed first run over `exWorld`, then a
second run against its store changing no node, edge or fetch record. -/
theorem c8_rerun_no_new_records_witness :
    canonicalize "http://a/" = some "http://a/" ∧
    discover exWorld 4 none "http://a/" emptyStore = (none, exRunStore) ∧
    ((discover exWorld 3 none "http://a/" exRunStore).1 = none ∧
     (discover exWorld 3 none "http://a/" exRunStore).2.nodes = exRunStore.nodes ∧
     (discover exWorld 3 none "http://a/" exRunStore).2.edges = exRunStore.edges ∧
     (discover exWorld 3 none "http://a/" exRunStore).2.fetched = exRunStore.fetched) :=
  ⟨by decide, by decide,
   c8_rerun_no_new_records exWorld 4 2 "http://a/" "http://a/" emptyStore exRunStore
     (by decide) (by decide)⟩

/-- C9 counterexample: two interleaved invocations of the non-atomic
check-then-create section for the same canonical URL — both run their existence
check before either runs its create — leave two nodes with that url in the
store, violating the at-most-one claim for racing branches. -/
theorem c9_counterexample :
    (raceRun raceInit [0, 1, 0, 1]).nodes.countP
      (fun n => decide (n.2 = "http://x/")) = 2 ∧
    ¬((raceRun raceInit [0, 1, 0, 1]).nodes.countP
      (fun n => decide (n.2 = "http://x/")) ≤ 1) := by
  decide

/-- C9 amended: the dedup invariant does hold for every serialized execution —
whenever no two check-then-create sections interleave, as in the sequential
semantics `discover`, node urls stay pairwise distinct; without a guard the
interleaved execution of `c9_counterexample` breaks it, the spec's own §5 risk. -/
theorem c9_dedup_sequential (w : World) (fuel : Nat) (src : Option SiteURLNode)
    (raw : String) (s : Store) (h : (s.nodes.map Prod.snd).Nodup) :
    ((discover w fuel src raw s).2.nodes.map Prod.snd).Nodup :=
  discover_nodup w fuel src raw s h

/-- Witness for C9 amended: a full run over `exWorld` from the empty store keeps
node urls pairwise distinct although `c` is reachable from both `a` and `b`. -/
theorem c9_dedup_sequential_witness :
    (emptyStore.nodes.map Prod.snd).Nodup ∧
    ((discover exWorld 4 none "http://a/" emptyStore).2.nodes.map Prod.snd).Nodup :=
  ⟨by decide, c9_dedup_sequential exWorld 4 none "http://a/" emptyStore (by decide)⟩

/-- C10: whenever every supplied source node carries a store-assigned id — true
at the root (`none`) and for every spawned child, which receives the node built
from the store's returned record — the traversal never reaches the
`source.id.unwrap()` panic. -/
theorem c10_source_id_unwrap_safe (w : World) (fuel : Nat) (src : Option SiteURLNode)
    (raw : String) (s : Store) (h : ∀ n, src = some n → n.id.isSome = true) :
    (discover w fuel src raw s).1 ≠ some .panicked :=
  discover_ne_panicked w fuel src raw s h

/-- Witness for C10 with a parented invocation whose source id is present. -/
theorem c10_source_id_unwrap_safe_witness :
    (⟨"http://a/", some 0⟩ : SiteURLNode).id.isSome = true ∧
    (discover exWorld 3 (some ⟨"http://a/", some 0⟩) "http://b/" exStoreA).1 ≠
      some .panicked :=
  ⟨by decide, c10_source_id_unwrap_safe exWorld 3 (some ⟨"http://a/", some 0⟩)
    "http://b/" exStoreA (fun n hn => by cases hn; rfl)⟩

end SiteConn
